import Mathlib

/-!
Verification of the Task Leasing and Financial Ledger Engine of the
avito-tasker repository.

The durable state is the PostgreSQL database described in
backend/schema.sql; the verdict and withdrawal operations are the SQL
scripts of backend/MODERATION.md, executed by an administrator inside a
transaction (BEGIN/COMMIT), so each script is modelled as an atomic
state transformer returning either a new store or an error (a raised
exception or violated constraint aborts the whole transaction, leaving
the store unchanged).

Modelling conventions:
* INTEGER/BIGINT columns become Int/Nat; balances are Int so that the
  non-negativity CHECK constraints of schema.sql are meaningful facts.
* The CHECK constraints check_main_balance_range and
  check_referral_balance_range of schema.sql (lines 24-25) fire on every
  UPDATE of a users row; this is modelled by checkUsersUpdate, which
  validates exactly the rows an update touches and aborts the
  transaction (error checkViolation) when a written row would leave the
  allowed range.
* Migration 001 tries to add a partial unique constraint
  unique_task_commission on referral_earnings.task_assignment_id with
  ALTER TABLE ... ADD CONSTRAINT ... UNIQUE (...) WHERE ...; that
  statement is not valid PostgreSQL DDL (only CREATE UNIQUE INDEX
  supports a WHERE clause - the form schema.sql itself uses for the
  active-lease index), so the intended constraint never exists and an
  INSERT INTO referral_earnings is not checked for a duplicate source
  lease. The model reflects the program: the referral INSERT always
  succeeds. The valid active-lease index of schema.sql is modelled as a
  real constraint on INSERT INTO task_assignments.
* Missing rows: an SQL UPDATE or SELECT INTO keyed by a nonexistent id
  silently matches no rows; the scripts are only ever run on existing
  ids, and every claim below assumes the rows exist, so a missing row is
  modelled as an explicit notFound error.
-/

namespace Avito

/-- A row of the users table (schema.sql): telegram_id key, the two
balances, and the immutable referred_by back-reference. -/
structure User where
  telegramId : Nat
  username : Option String
  mainBalance : Int
  referralBalance : Int
  referredBy : Option Nat
deriving DecidableEq

/-- task_assignments.status: 'assigned' (a live lease), 'submitted',
'approved', 'rejected' (schema.sql line 62-63). -/
inductive AStatus where
  | assigned
  | submitted
  | approved
  | rejected
deriving DecidableEq

/-- A row of the tasks table: price in rubles, availability flag, type
tag ('simple' or 'phone'). -/
structure Task where
  id : Nat
  taskType : String
  price : Int
  isAvailable : Bool
deriving DecidableEq

/-- A row of the task_assignments table: the lease binding one task to
one user. -/
structure Assignment where
  id : Nat
  taskId : Nat
  userId : Nat
  status : AStatus
deriving DecidableEq

/-- withdrawals.status: 'pending', 'approved', 'rejected'. -/
inductive WStatus where
  | pending
  | approved
  | rejected
deriving DecidableEq

/-- A row of the withdrawals table. -/
structure Withdrawal where
  id : Nat
  userId : Nat
  amount : Int
  status : WStatus
deriving DecidableEq

/-- A row of the referral_earnings table: the commission posting.
task_assignment_id is nullable (ON DELETE SET NULL, schema.sql line
141). -/
structure RefEarning where
  referrerId : Nat
  referralId : Nat
  amount : Int
  taskAssignmentId : Option Nat
  taskType : String
  referralUsername : Option String
deriving DecidableEq

/-- The durable relational state: the five claim-relevant tables of
schema.sql (screenshots carry no financial state and are omitted). -/
structure Store where
  users : List User
  tasks : List Task
  assignments : List Assignment
  withdrawals : List Withdrawal
  referralEarnings : List RefEarning
deriving DecidableEq

/-- Errors: a raised exception or violated constraint aborts the
surrounding transaction. notFound stands for a script run on a
nonexistent id; balanceOverflow for the RAISE EXCEPTION of the
NEW-CRITICAL-3 overflow guards; uniqueViolation for a violated unique
constraint; insufficientBalance for the CRITICAL-2 balance guard;
checkViolation for a violated CHECK constraint of schema.sql. -/
inductive ModErr where
  | notFound
  | balanceOverflow
  | uniqueViolation
  | insufficientBalance
  | checkViolation
deriving DecidableEq

/-- The balance ceiling of schema.sql (lines 24-25) and of the overflow
guards in MODERATION.md: 2,000,000,000 rubles. -/
def balanceLimit : Int := 2000000000

/-- An SQL UPDATE ... SET ... WHERE: apply g to every row satisfying p. -/
def setWhere {α : Type} (p : α → Bool) (g : α → α) (l : List α) : List α :=
  l.map (fun x => if p x then g x else x)

/-- UPDATE users SET ... WHERE telegram_id = uid. -/
def updateUser (uid : Nat) (f : User → User) (us : List User) : List User :=
  setWhere (fun x => decide (x.telegramId = uid)) f us

/-- The row-level CHECK constraints check_main_balance_range and
check_referral_balance_range of schema.sql: both balances lie in
[0, balanceLimit]. -/
def userRangeOK (u : User) : Bool :=
  decide (0 ≤ u.mainBalance) && decide (u.mainBalance ≤ balanceLimit) &&
    decide (0 ≤ u.referralBalance) && decide (u.referralBalance ≤ balanceLimit)

/-- PostgreSQL validates the CHECK constraints on every row a users
UPDATE writes; the update aborts unless every row matching the WHERE
clause still satisfies userRangeOK after f. -/
def checkUsersUpdate (uid : Nat) (f : User → User) (us : List User) : Bool :=
  us.all (fun x => if x.telegramId = uid then userRangeOK (f x) else true)

/-- SELECT * FROM users WHERE telegram_id = uid. -/
def findUser (uid : Nat) (s : Store) : Option User :=
  s.users.find? (fun u => decide (u.telegramId = uid))

/-- SELECT * FROM tasks WHERE id = tid. -/
def findTask (tid : Nat) (s : Store) : Option Task :=
  s.tasks.find? (fun t => decide (t.id = tid))

/-- SELECT * FROM task_assignments WHERE id = aid. -/
def findAssignment (aid : Nat) (s : Store) : Option Assignment :=
  s.assignments.find? (fun a => decide (a.id = aid))

/-- SELECT * FROM withdrawals WHERE id = wid. -/
def findWithdrawal (wid : Nat) (s : Store) : Option Withdrawal :=
  s.withdrawals.find? (fun w => decide (w.id = wid))

/-- main_balance of a user, if the user exists. -/
def mainBalanceOf (uid : Nat) (s : Store) : Option Int :=
  (findUser uid s).map (fun u => u.mainBalance)

/-- referral_balance of a user, if the user exists. -/
def referralBalanceOf (uid : Nat) (s : Store) : Option Int :=
  (findUser uid s).map (fun u => u.referralBalance)

/-- is_available of a task, if the task exists. -/
def taskAvailableOf (tid : Nat) (s : Store) : Option Bool :=
  (findTask tid s).map (fun t => t.isAvailable)

/-- status of a withdrawal, if it exists. -/
def withdrawalStatusOf (wid : Nat) (s : Store) : Option WStatus :=
  (findWithdrawal wid s).map (fun w => w.status)

/-- status of a task assignment, if it exists. -/
def assignmentStatusOf (aid : Nat) (s : Store) : Option AStatus :=
  (findAssignment aid s).map (fun a => a.status)

/-- The commission postings whose source lease is aid. -/
def postingsKeyed (aid : Nat) (s : Store) : List RefEarning :=
  s.referralEarnings.filter (fun e => decide (e.taskAssignmentId = some aid))

/-- The amounts of the commission postings whose source lease is aid. -/
def postingAmounts (aid : Nat) (s : Store) : List Int :=
  (postingsKeyed aid s).map (fun e => e.amount)

/-- Models the Approve Task script of backend/MODERATION.md (the primary
DO-block version, lines 84-187), run as one transaction:
1. UPDATE task_assignments SET status = 'approved' (no precondition on
   the current status);
2. the NEW-CRITICAL-3 overflow guard on the performer's main balance,
   then UPDATE users SET main_balance = main_balance + price;
3. UPDATE tasks SET is_available = TRUE;
4. if the performer's referred_by is non-null: v_commission :=
   v_task_price (the script's comment: commission is now 100 percent of
   the task price), INSERT INTO referral_earnings - unconstrained on
   task_assignment_id, since migration 001's partial UNIQUE table
   constraint is invalid DDL and never exists - then the overflow guard
   on the referrer's referral balance, and UPDATE users SET
   referral_balance = referral_balance + v_commission.
Any raised exception or violated constraint aborts the whole
transaction. -/
def approveTask (aid : Nat) (s : Store) : Except ModErr Store :=
  match findAssignment aid s with
  | none => .error .notFound
  | some a =>
    match findTask a.taskId s with
    | none => .error .notFound
    | some t =>
      match findUser a.userId s with
      | none => .error .notFound
      | some u =>
        let asg := setWhere (fun x => decide (x.id = aid))
          (fun x => { x with status := .approved }) s.assignments
        if t.price + u.mainBalance > balanceLimit then .error .balanceOverflow
        else
          let creditMain := fun (x : User) => { x with mainBalance := x.mainBalance + t.price }
          if checkUsersUpdate a.userId creditMain s.users then
            let users1 := updateUser a.userId creditMain s.users
            let tasks1 := setWhere (fun x => decide (x.id = a.taskId))
              (fun x => { x with isAvailable := true }) s.tasks
            match u.referredBy with
            | none => .ok { s with assignments := asg, users := users1, tasks := tasks1 }
            | some r =>
              let commission := t.price
              match users1.find? (fun x => decide (x.telegramId = r)) with
              | none => .error .notFound
              | some ru =>
                if commission + ru.referralBalance > balanceLimit then .error .balanceOverflow
                else
                  let creditRef := fun (x : User) =>
                    { x with referralBalance := x.referralBalance + commission }
                  if checkUsersUpdate r creditRef users1 then
                    .ok { s with
                          assignments := asg,
                          users := updateUser r creditRef users1,
                          tasks := tasks1,
                          referralEarnings := s.referralEarnings ++
                            [{ referrerId := r, referralId := u.telegramId,
                               amount := commission, taskAssignmentId := some aid,
                               taskType := t.taskType, referralUsername := u.username }] }
                  else .error .checkViolation
          else .error .checkViolation

/-- Models the simplified Approve Task script of backend/MODERATION.md
(lines 191-251): the same transaction without the explicit overflow
guards (only the schema CHECK constraints protect the balances); the
referral INSERT - likewise unconstrained on task_assignment_id - and
the referral-balance UPDATE are guarded by referred_by IS NOT NULL, and
the credited commission equals the task price. -/
def approveTaskSimplified (aid : Nat) (s : Store) : Except ModErr Store :=
  match findAssignment aid s with
  | none => .error .notFound
  | some a =>
    match findTask a.taskId s with
    | none => .error .notFound
    | some t =>
      match findUser a.userId s with
      | none => .error .notFound
      | some u =>
        let asg := setWhere (fun x => decide (x.id = aid))
          (fun x => { x with status := .approved }) s.assignments
        let creditMain := fun (x : User) => { x with mainBalance := x.mainBalance + t.price }
        if checkUsersUpdate a.userId creditMain s.users then
          let users1 := updateUser a.userId creditMain s.users
          let tasks1 := setWhere (fun x => decide (x.id = a.taskId))
            (fun x => { x with isAvailable := true }) s.tasks
          match u.referredBy with
          | none => .ok { s with assignments := asg, users := users1, tasks := tasks1 }
          | some r =>
            match users1.find? (fun x => decide (x.telegramId = r)) with
            | none => .error .notFound
            | some _ =>
              let creditRef := fun (x : User) =>
                { x with referralBalance := x.referralBalance + t.price }
              if checkUsersUpdate r creditRef users1 then
                .ok { s with
                      assignments := asg,
                      users := updateUser r creditRef users1,
                      tasks := tasks1,
                      referralEarnings := s.referralEarnings ++
                        [{ referrerId := r, referralId := u.telegramId,
                           amount := t.price, taskAssignmentId := some aid,
                           taskType := t.taskType, referralUsername := u.username }] }
              else .error .checkViolation
        else .error .checkViolation

/-- Models the Reject Task script of backend/MODERATION.md (lines
259-277): set the assignment status to 'rejected' and return the task
to the pool. No balance is touched. -/
def rejectTask (aid : Nat) (s : Store) : Except ModErr Store :=
  match findAssignment aid s with
  | none => .error .notFound
  | some a =>
    .ok { s with
          assignments := setWhere (fun x => decide (x.id = aid))
            (fun x => { x with status := .rejected }) s.assignments,
          tasks := setWhere (fun x => decide (x.id = a.taskId))
            (fun x => { x with isAvailable := true }) s.tasks }

/-- The v_deduct_from_main / v_deduct_from_referral split of the Approve
Withdrawal script: main_balance first, the remainder from
referral_balance. -/
def withdrawalDeductions (u : User) (amount : Int) : Int × Int :=
  if u.mainBalance ≥ amount then (amount, 0) else (u.mainBalance, amount - u.mainBalance)

/-- Models the Approve Withdrawal script of backend/MODERATION.md (the
primary DO-block version, lines 312-374): the CRITICAL-2 guard fails the
transaction when main_balance + referral_balance < amount; otherwise the
amount is deducted from main_balance first and the remainder from
referral_balance (withdrawalDeductions), and the withdrawal is marked
approved. -/
def approveWithdrawal (wid : Nat) (s : Store) : Except ModErr Store :=
  match findWithdrawal wid s with
  | none => .error .notFound
  | some w =>
    match findUser w.userId s with
    | none => .error .notFound
    | some u =>
      if u.mainBalance + u.referralBalance < w.amount then .error .insufficientBalance
      else
        let d := withdrawalDeductions u w.amount
        let f := fun (x : User) =>
          { x with mainBalance := x.mainBalance - d.1,
                   referralBalance := x.referralBalance - d.2 }
        if checkUsersUpdate w.userId f s.users then
          .ok { s with
                users := updateUser w.userId f s.users,
                withdrawals := setWhere (fun x => decide (x.id = wid))
                  (fun x => { x with status := .approved }) s.withdrawals }
        else .error .checkViolation

/-- Models the simplified Approve Withdrawal script of
backend/MODERATION.md (lines 378-404): a single UPDATE clamping both
balances with GREATEST(0, ...) - both right-hand sides read the old
main_balance - followed by marking the withdrawal approved. There is no
insufficient-balance guard: when the combined balance is short the
script silently debits what is available and still approves. -/
def approveWithdrawalSimplified (wid : Nat) (s : Store) : Except ModErr Store :=
  match findWithdrawal wid s with
  | none => .error .notFound
  | some w =>
    match findUser w.userId s with
    | none => .error .notFound
    | some _ =>
      let f := fun (x : User) =>
        { x with mainBalance := max 0 (x.mainBalance - w.amount),
                 referralBalance := max 0 (x.referralBalance - max 0 (w.amount - x.mainBalance)) }
      if checkUsersUpdate w.userId f s.users then
        .ok { s with
              users := updateUser w.userId f s.users,
              withdrawals := setWhere (fun x => decide (x.id = wid))
                (fun x => { x with status := .approved }) s.withdrawals }
      else .error .checkViolation

/-- Models the Reject Withdrawal script of backend/MODERATION.md (lines
412-446): the HIGH-14 FIX returns the money to the user's main balance
(UPDATE users SET main_balance = main_balance + v_amount), because the
backend deducted the balance when the withdrawal was created, and then
marks the withdrawal rejected. -/
def rejectWithdrawal (wid : Nat) (s : Store) : Except ModErr Store :=
  match findWithdrawal wid s with
  | none => .error .notFound
  | some w =>
    let f := fun (x : User) => { x with mainBalance := x.mainBalance + w.amount }
    if checkUsersUpdate w.userId f s.users then
      .ok { s with
            users := updateUser w.userId f s.users,
            withdrawals := setWhere (fun x => decide (x.id = wid))
              (fun x => { x with status := .rejected }) s.withdrawals }
    else .error .checkViolation

/-- Models INSERT INTO task_assignments under the partial unique index
idx_task_assignments_user_task_active of schema.sql (lines 79-82,
CRITICAL-7): inserting a row with status 'assigned' fails when another
row with the same (user_id, task_id) and status 'assigned' already
exists. -/
def insertAssignment (row : Assignment) (s : Store) : Except ModErr Store :=
  if decide (row.status = AStatus.assigned) &&
      s.assignments.any (fun a => decide (a.userId = row.userId) &&
        decide (a.taskId = row.taskId) && decide (a.status = AStatus.assigned)) then
    .error .uniqueViolation
  else .ok { s with assignments := s.assignments ++ [row] }

/-- Models DELETE FROM task_assignments WHERE id = aid together with the
declared foreign-key actions of schema.sql: referral_earnings rows
referencing the deleted assignment get task_assignment_id set to NULL
(ON DELETE SET NULL, line 141); no posting row is deleted. -/
def deleteAssignment (aid : Nat) (s : Store) : Store :=
  { s with
      assignments := s.assignments.filter (fun a => !decide (a.id = aid)),
      referralEarnings := s.referralEarnings.map (fun e =>
        if e.taskAssignmentId = some aid then { e with taskAssignmentId := none } else e) }

/-- All users satisfy the schema CHECK constraints. -/
def balancesOK (s : Store) : Bool :=
  s.users.all userRangeOK

/-- The non-null source-lease keys of the commission postings. -/
def commissionKeys (s : Store) : List Nat :=
  s.referralEarnings.filterMap (fun e => e.taskAssignmentId)

/-- The at-most-one-posting-per-non-null-source-lease property -
migration 001's stated intent, not an existing store constraint. -/
def uniqueCommissionOK (s : Store) : Prop :=
  (commissionKeys s).Nodup

/-- The (user_id, task_id) pairs of the assignments in state 'assigned'. -/
def activePairs (s : Store) : List (Nat × Nat) :=
  (s.assignments.filter (fun a => decide (a.status = AStatus.assigned))).map
    (fun a => (a.userId, a.taskId))

/-- The idx_task_assignments_user_task_active invariant: at most one
live lease per (user, task) pair. -/
def activeLeaseUnique (s : Store) : Prop :=
  (activePairs s).Nodup

instance (s : Store) : Decidable (uniqueCommissionOK s) := by
  unfold uniqueCommissionOK
  infer_instance

instance (s : Store) : Decidable (activeLeaseUnique s) := by
  unfold activeLeaseUnique
  infer_instance

/-- One administrative or store-level step: any of the modelled
operations succeeding on any input. -/
inductive Step : Store → Store → Prop where
  | approveTask (aid : Nat) (s s' : Store) :
      approveTask aid s = .ok s' → Step s s'
  | approveTaskSimplified (aid : Nat) (s s' : Store) :
      approveTaskSimplified aid s = .ok s' → Step s s'
  | rejectTask (aid : Nat) (s s' : Store) :
      rejectTask aid s = .ok s' → Step s s'
  | approveWithdrawal (wid : Nat) (s s' : Store) :
      approveWithdrawal wid s = .ok s' → Step s s'
  | approveWithdrawalSimplified (wid : Nat) (s s' : Store) :
      approveWithdrawalSimplified wid s = .ok s' → Step s s'
  | rejectWithdrawal (wid : Nat) (s s' : Store) :
      rejectWithdrawal wid s = .ok s' → Step s s'
  | insertAssignment (row : Assignment) (s s' : Store) :
      insertAssignment row s = .ok s' → Step s s'
  | deleteAssignment (aid : Nat) (s : Store) :
      Step s (deleteAssignment aid s)

/-- A store reachable from s0 through the modelled operations. -/
def Reachable (s0 s : Store) : Prop :=
  Relation.ReflTransGen Step s0 s

/-! Concrete stores used to evaluate the scripts on explicit inputs. -/

/-- A referred performer: referredBy = user 2. -/
def c1Performer : User :=
  { telegramId := 1, username := some "alice", mainBalance := 0, referralBalance := 0,
    referredBy := some 2 }

/-- The referrer of c1Performer. -/
def c1Referrer : User :=
  { telegramId := 2, username := some "bob", mainBalance := 0, referralBalance := 0,
    referredBy := none }

/-- A price-100 task. -/
def c1Task : Task :=
  { id := 10, taskType := "simple", price := 100, isAvailable := false }

/-- The submitted lease of c1Performer on c1Task. -/
def c1Lease : Assignment := { id := 5, taskId := 10, userId := 1, status := .submitted }

/-- Store with a submitted price-100 lease whose performer was referred. -/
def c1Store : Store :=
  { users := [c1Performer, c1Referrer], tasks := [c1Task], assignments := [c1Lease],
    withdrawals := [], referralEarnings := [] }

/-- A user with main balance 100 and referral balance 20. -/
def c2User : User :=
  { telegramId := 7, username := none, mainBalance := 100, referralBalance := 20,
    referredBy := none }

/-- A pending withdrawal of amount 40 by c2User. -/
def c2Withdrawal : Withdrawal := { id := 1, userId := 7, amount := 40, status := .pending }

/-- Store with one pending withdrawal. -/
def c2Store : Store :=
  { users := [c2User], tasks := [], assignments := [], withdrawals := [c2Withdrawal],
    referralEarnings := [] }

/-- A performer with no referrer. -/
def c3User : User :=
  { telegramId := 3, username := none, mainBalance := 0, referralBalance := 0,
    referredBy := none }

/-- A price-100 task. -/
def c3Task : Task :=
  { id := 10, taskType := "simple", price := 100, isAvailable := false }

/-- The submitted lease of c3User on c3Task. -/
def c3Lease : Assignment := { id := 6, taskId := 10, userId := 3, status := .submitted }

/-- Store with a submitted lease whose performer has no referrer. -/
def c3Store : Store :=
  { users := [c3User], tasks := [c3Task], assignments := [c3Lease], withdrawals := [],
    referralEarnings := [] }

/-- A referred performer for the already-posted-commission scenario. -/
def c3bPerformer : User :=
  { telegramId := 1, username := none, mainBalance := 100, referralBalance := 0,
    referredBy := some 2 }

/-- The referrer in the already-posted-commission scenario. -/
def c3bReferrer : User :=
  { telegramId := 2, username := none, mainBalance := 0, referralBalance := 100,
    referredBy := none }

/-- The already approved lease in the already-posted-commission scenario. -/
def c3bLease : Assignment := { id := 5, taskId := 10, userId := 1, status := .approved }

/-- The commission posting already keyed by lease 5. -/
def c3bPosting : RefEarning :=
  { referrerId := 2, referralId := 1, amount := 100, taskAssignmentId := some 5,
    taskType := "simple", referralUsername := none }

/-- Store in which lease 5 already fired its commission. -/
def c3bStore : Store :=
  { users := [c3bPerformer, c3bReferrer], tasks := [c1Task], assignments := [c3bLease],
    withdrawals := [], referralEarnings := [c3bPosting] }

/-- A user with main balance 30 and referral balance 20 (combined 50). -/
def c5User : User :=
  { telegramId := 8, username := none, mainBalance := 30, referralBalance := 20,
    referredBy := none }

/-- A pending withdrawal of amount 60, exceeding the combined balance 50. -/
def c5Short : Withdrawal := { id := 2, userId := 8, amount := 60, status := .pending }

/-- Store with a pending withdrawal larger than the combined balance. -/
def c5Store : Store :=
  { users := [c5User], tasks := [], assignments := [], withdrawals := [c5Short],
    referralEarnings := [] }

/-- A pending withdrawal of amount 40, covered by 30 main + 20 referral. -/
def c5Covered : Withdrawal := { id := 3, userId := 8, amount := 40, status := .pending }

/-- Store with a pending withdrawal covered by the combined balance. -/
def c5wStore : Store :=
  { users := [c5User], tasks := [], assignments := [], withdrawals := [c5Covered],
    referralEarnings := [] }

/-- A referred performer with zero balances, for the double-approval
scenario. -/
def c4Performer : User :=
  { telegramId := 1, username := none, mainBalance := 0, referralBalance := 0,
    referredBy := some 2 }

/-- The referrer in the double-approval scenario. -/
def c4Referrer : User :=
  { telegramId := 2, username := none, mainBalance := 0, referralBalance := 0,
    referredBy := none }

/-- Store with a submitted price-100 lease of a referred performer and
no commission postings yet. -/
def c4Store : Store :=
  { users := [c4Performer, c4Referrer],
    tasks := [{ id := 10, taskType := "simple", price := 100, isAvailable := false }],
    assignments := [{ id := 5, taskId := 10, userId := 1, status := .submitted }],
    withdrawals := [], referralEarnings := [] }

/-- A live (assigned) lease of user 1 on task 10. -/
def c6Row : Assignment := { id := 1, taskId := 10, userId := 1, status := .assigned }

/-- A second live lease of the same user on the same task, to be inserted. -/
def c6Row2 : Assignment := { id := 2, taskId := 10, userId := 1, status := .assigned }

/-- Store with one live lease of user 1 on task 10. -/
def c6Store : Store :=
  { users := [], tasks := [], assignments := [c6Row], withdrawals := [],
    referralEarnings := [] }

/-- Store with one in-range user. -/
def c7Store : Store :=
  { users := [c2User], tasks := [], assignments := [], withdrawals := [],
    referralEarnings := [] }

/-- A performer whose main balance is 50 below the ceiling. -/
def c8NearLimit : User :=
  { telegramId := 9, username := none, mainBalance := 1999999950, referralBalance := 0,
    referredBy := none }

/-- The submitted lease of c8NearLimit on the price-100 task. -/
def c8Lease : Assignment := { id := 7, taskId := 10, userId := 9, status := .submitted }

/-- Store in which crediting the performer would pass the ceiling. -/
def c8bStore : Store :=
  { users := [c8NearLimit], tasks := [c1Task], assignments := [c8Lease], withdrawals := [],
    referralEarnings := [] }

/-- The store approveTask produces from c9Store (used to witness the
in-range conclusion). -/
def c8aResult : Store :=
  { users := [{ telegramId := 4, username := none, mainBalance := 107,
                referralBalance := 3, referredBy := none }],
    tasks := [{ id := 10, taskType := "simple", price := 100, isAvailable := true }],
    assignments := [{ id := 8, taskId := 10, userId := 4, status := .approved }],
    withdrawals := [], referralEarnings := [] }

/-- A referrer whose referral balance is 50 below the ceiling. -/
def c8Referrer : User :=
  { telegramId := 2, username := none, mainBalance := 0, referralBalance := 1999999950,
    referredBy := none }

/-- Store in which crediting the referrer would pass the ceiling. -/
def c8cStore : Store :=
  { users := [c1Performer, c8Referrer], tasks := [c1Task], assignments := [c1Lease],
    withdrawals := [], referralEarnings := [] }

/-- Performer with no referrer for the plain-approval witness. -/
def c9User : User :=
  { telegramId := 4, username := none, mainBalance := 7, referralBalance := 3,
    referredBy := none }

/-- The submitted lease of c9User on the price-100 task. -/
def c9Lease : Assignment := { id := 8, taskId := 10, userId := 4, status := .submitted }

/-- Store with a submitted lease of an unreferred performer. -/
def c9Store : Store :=
  { users := [c9User], tasks := [c1Task], assignments := [c9Lease], withdrawals := [],
    referralEarnings := [] }

/-- A posting keyed by lease 7. -/
def c10Posting : RefEarning :=
  { referrerId := 2, referralId := 1, amount := 50, taskAssignmentId := some 7,
    taskType := "phone", referralUsername := none }

/-- Store with an assignment and its commission posting. -/
def c10Store : Store :=
  { users := [], tasks := [], assignments := [{ id := 7, taskId := 10, userId := 1, status := .approved }],
    withdrawals := [], referralEarnings := [c10Posting] }

/-- A posting whose source lease reference was nulled. -/
def nullPosting1 : RefEarning :=
  { referrerId := 2, referralId := 1, amount := 50, taskAssignmentId := none,
    taskType := "simple", referralUsername := none }

/-- A second posting with a nulled source lease reference. -/
def nullPosting2 : RefEarning :=
  { referrerId := 2, referralId := 3, amount := 75, taskAssignmentId := none,
    taskType := "phone", referralUsername := none }

/-- Store holding two NULL-keyed commission postings side by side. -/
def twoNullStore : Store :=
  { users := [], tasks := [], assignments := [], withdrawals := [],
    referralEarnings := [nullPosting1, nullPosting2] }

/-- The store the Reject Withdrawal script produces from c2Store. -/
def c2Result : Store :=
  { users := [{ telegramId := 7, username := none, mainBalance := 140,
                referralBalance := 20, referredBy := none }],
    tasks := [], assignments := [],
    withdrawals := [{ id := 1, userId := 7, amount := 40, status := .rejected }],
    referralEarnings := [] }

/-- The store the Approve Task script produces from c3Store. -/
def c3Result : Store :=
  { users := [{ telegramId := 3, username := none, mainBalance := 100,
                referralBalance := 0, referredBy := none }],
    tasks := [{ id := 10, taskType := "simple", price := 100, isAvailable := true }],
    assignments := [{ id := 6, taskId := 10, userId := 3, status := .approved }],
    withdrawals := [], referralEarnings := [] }

/-- The store the Approve Task script produces from c3bStore: the
already-posted commission is joined by a second posting keyed by the
same lease, and performer and referrer are credited again. -/
def c3bResult : Store :=
  { users := [{ telegramId := 1, username := none, mainBalance := 200,
                referralBalance := 0, referredBy := some 2 },
              { telegramId := 2, username := none, mainBalance := 0,
                referralBalance := 200, referredBy := none }],
    tasks := [{ id := 10, taskType := "simple", price := 100, isAvailable := true }],
    assignments := [{ id := 5, taskId := 10, userId := 1, status := .approved }],
    withdrawals := [],
    referralEarnings := [c3bPosting,
      { referrerId := 2, referralId := 1, amount := 100, taskAssignmentId := some 5,
        taskType := "simple", referralUsername := none }] }

/-- The store the Approve Withdrawal script produces from c5wStore. -/
def c5Result : Store :=
  { users := [{ telegramId := 8, username := none, mainBalance := 0,
                referralBalance := 10, referredBy := none }],
    tasks := [], assignments := [],
    withdrawals := [{ id := 3, userId := 8, amount := 40, status := .approved }],
    referralEarnings := [] }

/-- The store both Approve Task scripts produce from c9Store. -/
def c9Result : Store :=
  { users := [{ telegramId := 4, username := none, mainBalance := 107,
                referralBalance := 3, referredBy := none }],
    tasks := [{ id := 10, taskType := "simple", price := 100, isAvailable := true }],
    assignments := [{ id := 8, taskId := 10, userId := 4, status := .approved }],
    withdrawals := [], referralEarnings := [] }

/-! Helper lemmas about the SQL-style list operations. -/

theorem length_setWhere {α : Type} (p : α → Bool) (g : α → α) (l : List α) :
    (setWhere p g l).length = l.length := by
  simp [setWhere]

theorem find?_setWhere_self {α : Type} (p : α → Bool) (g : α → α) (l : List α) (u : α)
    (hu : l.find? p = some u) (hg : ∀ x, p (g x) = p x) :
    (setWhere p g l).find? p = some (g u) := by
  induction l with
  | nil => simp at hu
  | cons x xs ih =>
    by_cases hx : p x = true
    · rw [List.find?_cons_of_pos _ hx] at hu
      cases hu
      simp only [setWhere, List.map_cons, if_pos hx]
      exact List.find?_cons_of_pos _ (by rw [hg]; exact hx)
    · rw [List.find?_cons_of_neg _ (by simpa using hx)] at hu
      simp only [setWhere, List.map_cons, if_neg hx]
      rw [List.find?_cons_of_neg _ (by simpa using hx)]
      exact ih hu

theorem find?_setWhere_other {α : Type} (p q : α → Bool) (g : α → α) (l : List α)
    (hq : ∀ x, q (g x) = q x) (hpq : ∀ x, p x = true → q x = false) :
    (setWhere p g l).find? q = l.find? q := by
  induction l with
  | nil => rfl
  | cons x xs ih =>
    by_cases hx : p x = true
    · have hqx : q x = false := hpq x hx
      simp only [setWhere, List.map_cons, if_pos hx]
      rw [List.find?_cons_of_neg _ (by simp [hq, hqx]),
        List.find?_cons_of_neg _ (by simp [hqx])]
      exact ih
    · simp only [setWhere, List.map_cons, if_neg hx]
      by_cases hqx : q x = true
      · rw [List.find?_cons_of_pos _ hqx, List.find?_cons_of_pos _ hqx]
      · rw [List.find?_cons_of_neg _ (by simpa using hqx),
          List.find?_cons_of_neg _ (by simpa using hqx)]
        exact ih

theorem all_setWhere {α : Type} (r p : α → Bool) (g : α → α) (l : List α)
    (hall : l.all r = true) (hg : ∀ x ∈ l, p x = true → r (g x) = true) :
    (setWhere p g l).all r = true := by
  rw [List.all_eq_true] at hall ⊢
  intro y hy
  simp only [setWhere, List.mem_map] at hy
  obtain ⟨x, hxl, hxy⟩ := hy
  by_cases hx : p x = true
  · rw [if_pos hx] at hxy
    exact hxy ▸ hg x hxl hx
  · rw [if_neg hx] at hxy
    exact hxy ▸ hall x hxl

theorem map_setWhere {α β : Type} (k : α → β) (p : α → Bool) (g : α → α) (l : List α)
    (hk : ∀ x, p x = true → k (g x) = k x) :
    (setWhere p g l).map k = l.map k := by
  induction l with
  | nil => rfl
  | cons x xs ih =>
    by_cases hx : p x = true
    · simp only [setWhere, List.map_cons, if_pos hx] at ih ⊢
      rw [hk x hx, ih]
    · simp only [setWhere, List.map_cons, if_neg hx] at ih ⊢
      rw [ih]

theorem checkUsersUpdate_of_found {uid : Nat} {f : User → User} {us : List User} {u : User}
    (hu : us.find? (fun x => decide (x.telegramId = uid)) = some u)
    (hnd : (us.map User.telegramId).Nodup)
    (hok : userRangeOK (f u) = true) :
    checkUsersUpdate uid f us = true := by
  induction us with
  | nil => simp at hu
  | cons x xs ih =>
    simp only [List.map_cons, List.nodup_cons] at hnd
    by_cases hx : x.telegramId = uid
    · rw [List.find?_cons_of_pos _ (by simpa using hx)] at hu
      cases hu
      simp only [checkUsersUpdate, List.all_cons, if_pos hx, hok, Bool.true_and]
      rw [List.all_eq_true]
      intro y hy
      have : y.telegramId ≠ uid := by
        intro hyid
        exact hnd.1 (by
          rw [List.mem_map]
          exact ⟨y, hy, by rw [hyid, hx]⟩)
      simp [this]
    · rw [List.find?_cons_of_neg _ (by simpa using hx)] at hu
      simp only [checkUsersUpdate, List.all_cons, if_neg hx, Bool.true_and]
      exact ih hu hnd.2

theorem all_userRangeOK_updateUser {uid : Nat} {f : User → User} {us : List User}
    (hall : us.all userRangeOK = true) (hchk : checkUsersUpdate uid f us = true) :
    (updateUser uid f us).all userRangeOK = true := by
  apply all_setWhere _ _ _ _ hall
  intro x hx hdec
  simp only [checkUsersUpdate, List.all_eq_true] at hchk
  have := hchk x hx
  rw [if_pos (by simpa using hdec)] at this
  exact this

theorem map_telegramId_updateUser {uid : Nat} {f : User → User} {us : List User}
    (hid : ∀ x, (f x).telegramId = x.telegramId) :
    (updateUser uid f us).map User.telegramId = us.map User.telegramId := by
  exact map_setWhere _ _ _ _ (fun x _ => hid x)


theorem find?_updateUser_self {uid : Nat} {f : User → User} {us : List User} {u : User}
    (hu : us.find? (fun x => decide (x.telegramId = uid)) = some u)
    (hid : ∀ x, (f x).telegramId = x.telegramId) :
    (updateUser uid f us).find? (fun x => decide (x.telegramId = uid)) = some (f u) :=
  find?_setWhere_self _ f us u hu (fun x => by simp [hid x])

theorem find?_updateUser_other {uid uid2 : Nat} {f : User → User} (us : List User)
    (hne : uid2 ≠ uid) (hid : ∀ x, (f x).telegramId = x.telegramId) :
    (updateUser uid f us).find? (fun x => decide (x.telegramId = uid2)) =
      us.find? (fun x => decide (x.telegramId = uid2)) := by
  apply find?_setWhere_other
  · intro x
    simp [hid x]
  · intro x hx
    rw [decide_eq_true_eq] at hx
    simp only [hx, decide_eq_false_iff_not]
    exact fun h => hne h.symm

theorem filterMap_nullify (aid : Nat) (l : List RefEarning) :
    (l.map (fun e =>
      if e.taskAssignmentId = some aid then { e with taskAssignmentId := none } else e)).filterMap
        (fun e => e.taskAssignmentId) =
      (l.filterMap (fun e => e.taskAssignmentId)).filter (fun k => !decide (k = aid)) := by
  induction l with
  | nil => rfl
  | cons e es ih =>
    by_cases he : e.taskAssignmentId = some aid
    · simp only [List.map_cons, if_pos he, List.filterMap_cons, he]
      simp only [List.filter_cons, decide_True, Bool.not_true]
      exact ih
    · simp only [List.map_cons, if_neg he, List.filterMap_cons]
      cases hk : e.taskAssignmentId with
      | none => simpa using ih
      | some k =>
        have hkaid : k ≠ aid := by
          intro hkk
          exact he (by rw [hk, hkk])
        simp only [List.filter_cons, hkaid, decide_False, Bool.not_false, if_pos]
        rw [ih]

theorem activePairs_setStatus_sublist (aid : Nat) (st : AStatus) (hst : st ≠ AStatus.assigned)
    (l : List Assignment) :
    List.Sublist
      (((setWhere (fun x => decide (x.id = aid)) (fun x => { x with status := st }) l).filter
          (fun a => decide (a.status = AStatus.assigned))).map (fun a => (a.userId, a.taskId)))
      ((l.filter (fun a => decide (a.status = AStatus.assigned))).map
        (fun a => (a.userId, a.taskId))) := by
  induction l with
  | nil => simp [setWhere]
  | cons x xs ih =>
    simp only [setWhere, List.map_cons] at ih ⊢
    by_cases hx : decide (x.id = aid) = true
    · rw [if_pos hx]
      rw [List.filter_cons_of_neg (p := fun (a : Assignment) => decide (a.status = AStatus.assigned))
        (by simp [hst])]
      by_cases hxa : decide (x.status = AStatus.assigned) = true
      · rw [List.filter_cons_of_pos (p := fun (a : Assignment) => decide (a.status = AStatus.assigned)) hxa,
          List.map_cons]
        exact List.Sublist.trans ih (List.sublist_cons_self _ _)
      · rw [List.filter_cons_of_neg (p := fun (a : Assignment) => decide (a.status = AStatus.assigned))
          (by simpa using hxa)]
        exact ih
    · rw [if_neg hx]
      by_cases hxa : decide (x.status = AStatus.assigned) = true
      · rw [List.filter_cons_of_pos (p := fun (a : Assignment) => decide (a.status = AStatus.assigned)) hxa,
          List.filter_cons_of_pos (p := fun (a : Assignment) => decide (a.status = AStatus.assigned)) hxa,
          List.map_cons, List.map_cons]
        exact List.Sublist.cons₂ _ ih
      · rw [List.filter_cons_of_neg (p := fun (a : Assignment) => decide (a.status = AStatus.assigned))
          (by simpa using hxa),
          List.filter_cons_of_neg (p := fun (a : Assignment) => decide (a.status = AStatus.assigned))
          (by simpa using hxa)]
        exact ih

/-! Success-shape lemmas: what a committed transaction of each script
looks like. -/

theorem approveTask_shape {aid : Nat} {s s' : Store} (h : approveTask aid s = .ok s') :
    ∃ a t u, findAssignment aid s = some a ∧ findTask a.taskId s = some t ∧
      findUser a.userId s = some u ∧
      s'.withdrawals = s.withdrawals ∧
      s'.assignments = setWhere (fun x => decide (x.id = aid))
        (fun x => { x with status := AStatus.approved }) s.assignments ∧
      s'.tasks = setWhere (fun x => decide (x.id = a.taskId))
        (fun x => { x with isAvailable := true }) s.tasks ∧
      ((u.referredBy = none ∧
          checkUsersUpdate a.userId
            (fun x => { x with mainBalance := x.mainBalance + t.price }) s.users = true ∧
          s'.users = updateUser a.userId
            (fun x => { x with mainBalance := x.mainBalance + t.price }) s.users ∧
          s'.referralEarnings = s.referralEarnings) ∨
        (∃ r, u.referredBy = some r ∧
          checkUsersUpdate a.userId
            (fun x => { x with mainBalance := x.mainBalance + t.price }) s.users = true ∧
          checkUsersUpdate r (fun x => { x with referralBalance := x.referralBalance + t.price })
            (updateUser a.userId
              (fun x => { x with mainBalance := x.mainBalance + t.price }) s.users) = true ∧
          s'.users = updateUser r
            (fun x => { x with referralBalance := x.referralBalance + t.price })
            (updateUser a.userId
              (fun x => { x with mainBalance := x.mainBalance + t.price }) s.users) ∧
          ∃ e, e.taskAssignmentId = some aid ∧
            s'.referralEarnings = s.referralEarnings ++ [e])) := by
  simp only [approveTask] at h
  split at h
  · exact absurd h (by simp)
  case _ a ha =>
  split at h
  · exact absurd h (by simp)
  case _ t ht =>
  split at h
  · exact absurd h (by simp)
  case _ u hu =>
  split at h
  · exact absurd h (by simp)
  split at h
  case _ hchk =>
    split at h
    case _ hnone =>
      cases h
      exact ⟨a, t, u, ha, ht, hu, rfl, rfl, rfl, Or.inl ⟨hnone, hchk, rfl, rfl⟩⟩
    case _ r hr =>
      split at h
      · exact absurd h (by simp)
      case _ ru hru =>
      split at h
      · exact absurd h (by simp)
      split at h
      case _ hchk2 =>
        cases h
        exact ⟨a, t, u, ha, ht, hu, rfl, rfl, rfl,
          Or.inr ⟨r, hr, hchk, hchk2, rfl, ⟨_, rfl, rfl⟩⟩⟩
      · exact absurd h (by simp)
  · exact absurd h (by simp)


theorem approveTaskSimplified_shape {aid : Nat} {s s' : Store}
    (h : approveTaskSimplified aid s = .ok s') :
    ∃ a t u, findAssignment aid s = some a ∧ findTask a.taskId s = some t ∧
      findUser a.userId s = some u ∧
      s'.withdrawals = s.withdrawals ∧
      s'.assignments = setWhere (fun x => decide (x.id = aid))
        (fun x => { x with status := AStatus.approved }) s.assignments ∧
      s'.tasks = setWhere (fun x => decide (x.id = a.taskId))
        (fun x => { x with isAvailable := true }) s.tasks ∧
      ((u.referredBy = none ∧
          checkUsersUpdate a.userId
            (fun x => { x with mainBalance := x.mainBalance + t.price }) s.users = true ∧
          s'.users = updateUser a.userId
            (fun x => { x with mainBalance := x.mainBalance + t.price }) s.users ∧
          s'.referralEarnings = s.referralEarnings) ∨
        (∃ r, u.referredBy = some r ∧
          checkUsersUpdate a.userId
            (fun x => { x with mainBalance := x.mainBalance + t.price }) s.users = true ∧
          checkUsersUpdate r (fun x => { x with referralBalance := x.referralBalance + t.price })
            (updateUser a.userId
              (fun x => { x with mainBalance := x.mainBalance + t.price }) s.users) = true ∧
          s'.users = updateUser r
            (fun x => { x with referralBalance := x.referralBalance + t.price })
            (updateUser a.userId
              (fun x => { x with mainBalance := x.mainBalance + t.price }) s.users) ∧
          ∃ e, e.taskAssignmentId = some aid ∧
            s'.referralEarnings = s.referralEarnings ++ [e])) := by
  simp only [approveTaskSimplified] at h
  split at h
  · exact absurd h (by simp)
  case _ a ha =>
  split at h
  · exact absurd h (by simp)
  case _ t ht =>
  split at h
  · exact absurd h (by simp)
  case _ u hu =>
  split at h
  case _ hchk =>
    split at h
    case _ hnone =>
      cases h
      exact ⟨a, t, u, ha, ht, hu, rfl, rfl, rfl, Or.inl ⟨hnone, hchk, rfl, rfl⟩⟩
    case _ r hr =>
      split at h
      · exact absurd h (by simp)
      case _ ru hru =>
      split at h
      case _ hchk2 =>
        cases h
        exact ⟨a, t, u, ha, ht, hu, rfl, rfl, rfl,
          Or.inr ⟨r, hr, hchk, hchk2, rfl, ⟨_, rfl, rfl⟩⟩⟩
      · exact absurd h (by simp)
  · exact absurd h (by simp)

theorem rejectTask_shape {aid : Nat} {s s' : Store} (h : rejectTask aid s = .ok s') :
    ∃ a, findAssignment aid s = some a ∧
      s'.users = s.users ∧ s'.withdrawals = s.withdrawals ∧
      s'.referralEarnings = s.referralEarnings ∧
      s'.assignments = setWhere (fun x => decide (x.id = aid))
        (fun x => { x with status := AStatus.rejected }) s.assignments ∧
      s'.tasks = setWhere (fun x => decide (x.id = a.taskId))
        (fun x => { x with isAvailable := true }) s.tasks := by
  simp only [rejectTask] at h
  split at h
  · exact absurd h (by simp)
  case _ a ha =>
  cases h
  exact ⟨a, ha, rfl, rfl, rfl, rfl, rfl⟩

theorem approveWithdrawal_shape {wid : Nat} {s s' : Store}
    (h : approveWithdrawal wid s = .ok s') :
    ∃ w u, findWithdrawal wid s = some w ∧ findUser w.userId s = some u ∧
      ¬u.mainBalance + u.referralBalance < w.amount ∧
      checkUsersUpdate w.userId (fun x =>
        { x with
            mainBalance := x.mainBalance - (withdrawalDeductions u w.amount).1,
            referralBalance := x.referralBalance - (withdrawalDeductions u w.amount).2 })
        s.users = true ∧
      s'.users = updateUser w.userId (fun x =>
        { x with
            mainBalance := x.mainBalance - (withdrawalDeductions u w.amount).1,
            referralBalance := x.referralBalance - (withdrawalDeductions u w.amount).2 })
        s.users ∧
      s'.withdrawals = setWhere (fun x => decide (x.id = wid))
        (fun x => { x with status := WStatus.approved }) s.withdrawals ∧
      s'.tasks = s.tasks ∧ s'.assignments = s.assignments ∧
      s'.referralEarnings = s.referralEarnings := by
  simp only [approveWithdrawal] at h
  split at h
  · exact absurd h (by simp)
  case _ w hw =>
  split at h
  · exact absurd h (by simp)
  case _ u hu =>
  split at h
  · exact absurd h (by simp)
  case _ hsuff =>
  split at h
  case _ hchk =>
    cases h
    exact ⟨w, u, hw, hu, hsuff, hchk, rfl, rfl, rfl, rfl, rfl⟩
  · exact absurd h (by simp)

theorem approveWithdrawalSimplified_shape {wid : Nat} {s s' : Store}
    (h : approveWithdrawalSimplified wid s = .ok s') :
    ∃ w u, findWithdrawal wid s = some w ∧ findUser w.userId s = some u ∧
      checkUsersUpdate w.userId (fun x =>
        { x with
            mainBalance := max 0 (x.mainBalance - w.amount),
            referralBalance := max 0 (x.referralBalance - max 0 (w.amount - x.mainBalance)) })
        s.users = true ∧
      s'.users = updateUser w.userId (fun x =>
        { x with
            mainBalance := max 0 (x.mainBalance - w.amount),
            referralBalance := max 0 (x.referralBalance - max 0 (w.amount - x.mainBalance)) })
        s.users ∧
      s'.withdrawals = setWhere (fun x => decide (x.id = wid))
        (fun x => { x with status := WStatus.approved }) s.withdrawals ∧
      s'.tasks = s.tasks ∧ s'.assignments = s.assignments ∧
      s'.referralEarnings = s.referralEarnings := by
  simp only [approveWithdrawalSimplified] at h
  split at h
  · exact absurd h (by simp)
  case _ w hw =>
  split at h
  · exact absurd h (by simp)
  case _ u hu =>
  split at h
  case _ hchk =>
    cases h
    exact ⟨w, u, hw, hu, hchk, rfl, rfl, rfl, rfl, rfl⟩
  · exact absurd h (by simp)

theorem rejectWithdrawal_shape {wid : Nat} {s s' : Store}
    (h : rejectWithdrawal wid s = .ok s') :
    ∃ w, findWithdrawal wid s = some w ∧
      checkUsersUpdate w.userId
        (fun x => { x with mainBalance := x.mainBalance + w.amount }) s.users = true ∧
      s'.users = updateUser w.userId
        (fun x => { x with mainBalance := x.mainBalance + w.amount }) s.users ∧
      s'.withdrawals = setWhere (fun x => decide (x.id = wid))
        (fun x => { x with status := WStatus.rejected }) s.withdrawals ∧
      s'.tasks = s.tasks ∧ s'.assignments = s.assignments ∧
      s'.referralEarnings = s.referralEarnings := by
  simp only [rejectWithdrawal] at h
  split at h
  · exact absurd h (by simp)
  case _ w hw =>
  split at h
  case _ hchk =>
    cases h
    exact ⟨w, hw, hchk, rfl, rfl, rfl, rfl, rfl⟩
  · exact absurd h (by simp)

theorem insertAssignment_shape {row : Assignment} {s s' : Store}
    (h : insertAssignment row s = .ok s') :
    (decide (row.status = AStatus.assigned) &&
        s.assignments.any (fun a => decide (a.userId = row.userId) &&
          decide (a.taskId = row.taskId) && decide (a.status = AStatus.assigned))) = false ∧
      s'.assignments = s.assignments ++ [row] ∧
      s'.users = s.users ∧ s'.tasks = s.tasks ∧ s'.withdrawals = s.withdrawals ∧
      s'.referralEarnings = s.referralEarnings := by
  simp only [insertAssignment] at h
  split at h
  · exact absurd h (by simp)
  case _ hc =>
    cases h
    exact ⟨by simpa using hc, rfl, rfl, rfl, rfl, rfl⟩

/-! Invariant preservation. -/

theorem balancesOK_step {s s' : Store} (hs : Step s s') (hb : balancesOK s = true) :
    balancesOK s' = true := by
  cases hs with
  | approveTask aid s s' hop =>
    obtain ⟨a, t, u, -, -, -, -, -, -, hcase⟩ := approveTask_shape hop
    cases hcase with
    | inl hc =>
      obtain ⟨-, hchk, husers, -⟩ := hc
      simp only [balancesOK, husers]
      exact all_userRangeOK_updateUser hb hchk
    | inr hc =>
      obtain ⟨r, -, hchk, hchk2, husers, -⟩ := hc
      simp only [balancesOK, husers]
      exact all_userRangeOK_updateUser (all_userRangeOK_updateUser hb hchk) hchk2
  | approveTaskSimplified aid s s' hop =>
    obtain ⟨a, t, u, -, -, -, -, -, -, hcase⟩ := approveTaskSimplified_shape hop
    cases hcase with
    | inl hc =>
      obtain ⟨-, hchk, husers, -⟩ := hc
      simp only [balancesOK, husers]
      exact all_userRangeOK_updateUser hb hchk
    | inr hc =>
      obtain ⟨r, -, hchk, hchk2, husers, -⟩ := hc
      simp only [balancesOK, husers]
      exact all_userRangeOK_updateUser (all_userRangeOK_updateUser hb hchk) hchk2
  | rejectTask aid s s' hop =>
    obtain ⟨a, -, husers, -, -, -, -⟩ := rejectTask_shape hop
    simpa only [balancesOK, husers] using hb
  | approveWithdrawal wid s s' hop =>
    obtain ⟨w, u, -, -, -, hchk, husers, -, -, -, -⟩ := approveWithdrawal_shape hop
    simp only [balancesOK, husers]
    exact all_userRangeOK_updateUser hb hchk
  | approveWithdrawalSimplified wid s s' hop =>
    obtain ⟨w, u, -, -, hchk, husers, -, -, -, -⟩ := approveWithdrawalSimplified_shape hop
    simp only [balancesOK, husers]
    exact all_userRangeOK_updateUser hb hchk
  | rejectWithdrawal wid s s' hop =>
    obtain ⟨w, -, hchk, husers, -, -, -, -⟩ := rejectWithdrawal_shape hop
    simp only [balancesOK, husers]
    exact all_userRangeOK_updateUser hb hchk
  | insertAssignment row s s' hop =>
    obtain ⟨-, -, husers, -, -, -⟩ := insertAssignment_shape hop
    simpa only [balancesOK, husers] using hb
  | deleteAssignment aid s =>
    simpa only [balancesOK, deleteAssignment] using hb

theorem uniqueCommissionOK_delete (aid : Nat) {s : Store} (hc : uniqueCommissionOK s) :
    uniqueCommissionOK (deleteAssignment aid s) := by
  simp only [uniqueCommissionOK, commissionKeys, deleteAssignment]
  rw [filterMap_nullify]
  exact hc.filter _

theorem activeLeaseUnique_step {s s' : Store} (hs : Step s s') (hl : activeLeaseUnique s) :
    activeLeaseUnique s' := by
  cases hs with
  | approveTask aid s s' hop =>
    obtain ⟨a, t, u, -, -, -, -, hasg, -, -⟩ := approveTask_shape hop
    have := activePairs_setStatus_sublist aid AStatus.approved (by intro hh; cases hh) s.assignments
    exact List.Nodup.sublist (by simpa only [activePairs, hasg] using this) hl
  | approveTaskSimplified aid s s' hop =>
    obtain ⟨a, t, u, -, -, -, -, hasg, -, -⟩ := approveTaskSimplified_shape hop
    have := activePairs_setStatus_sublist aid AStatus.approved (by intro hh; cases hh) s.assignments
    exact List.Nodup.sublist (by simpa only [activePairs, hasg] using this) hl
  | rejectTask aid s s' hop =>
    obtain ⟨a, -, -, -, -, hasg, -⟩ := rejectTask_shape hop
    have := activePairs_setStatus_sublist aid AStatus.rejected (by intro hh; cases hh) s.assignments
    exact List.Nodup.sublist (by simpa only [activePairs, hasg] using this) hl
  | approveWithdrawal wid s s' hop =>
    obtain ⟨w, u, -, -, -, -, -, -, -, hasg, -⟩ := approveWithdrawal_shape hop
    simpa only [activeLeaseUnique, activePairs, hasg] using hl
  | approveWithdrawalSimplified wid s s' hop =>
    obtain ⟨w, u, -, -, -, -, -, -, hasg, -⟩ := approveWithdrawalSimplified_shape hop
    simpa only [activeLeaseUnique, activePairs, hasg] using hl
  | rejectWithdrawal wid s s' hop =>
    obtain ⟨w, -, -, -, -, -, hasg, -⟩ := rejectWithdrawal_shape hop
    simpa only [activeLeaseUnique, activePairs, hasg] using hl
  | insertAssignment row s s' hop =>
    obtain ⟨hguard, hasg, -, -, -, -⟩ := insertAssignment_shape hop
    simp only [activeLeaseUnique, activePairs, hasg, List.filter_append, List.map_append]
    rw [Bool.and_eq_false_iff] at hguard
    cases hguard with
    | inl hrow =>
      have : List.filter (fun a => decide (a.status = AStatus.assigned)) [row] = [] := by
        simp only [List.filter_cons, List.filter_nil, hrow, Bool.false_eq_true, if_neg]
        simp [hrow]
      rw [this]
      simpa only [List.map_nil, List.append_nil] using hl
    | inr hany =>
      by_cases hrow : decide (row.status = AStatus.assigned) = true
      · have hfil : List.filter (fun a => decide (a.status = AStatus.assigned)) [row] = [row] := by
          simp [List.filter_cons, hrow]
        rw [hfil]
        rw [List.nodup_append]
        refine ⟨hl, by simp, ?_⟩
        intro x hx hx2
        simp only [List.map_cons, List.map_nil, List.mem_singleton] at hx2
        subst hx2
        simp only [activePairs, List.mem_map, List.mem_filter] at hx
        obtain ⟨b, ⟨hbl, hbs⟩, hbpair⟩ := hx
        have hb1 : b.userId = row.userId := congrArg Prod.fst hbpair
        have hb2 : b.taskId = row.taskId := congrArg Prod.snd hbpair
        have : s.assignments.any (fun a => decide (a.userId = row.userId) &&
            decide (a.taskId = row.taskId) && decide (a.status = AStatus.assigned)) = true :=
          List.any_eq_true.mpr ⟨b, hbl, by simp [hb1, hb2, hbs]⟩
        rw [hany] at this
        cases this
      · have : List.filter (fun a => decide (a.status = AStatus.assigned)) [row] = [] := by
          simp only [List.filter_cons, List.filter_nil]
          simp [hrow]
        rw [this]
        simpa only [List.map_nil, List.append_nil] using hl
  | deleteAssignment aid s =>
    simp only [activeLeaseUnique, activePairs, deleteAssignment]
    exact List.Nodup.sublist
      (((List.filter_sublist s.assignments).filter _).map _) hl

theorem balancesOK_reachable {s0 s : Store} (h0 : balancesOK s0 = true)
    (hr : Reachable s0 s) : balancesOK s = true := by
  induction hr with
  | refl => exact h0
  | tail _ hstep ih => exact balancesOK_step hstep ih

theorem activeLeaseUnique_reachable {s0 s : Store} (h0 : activeLeaseUnique s0)
    (hr : Reachable s0 s) : activeLeaseUnique s := by
  induction hr with
  | refl => exact h0
  | tail _ hstep ih => exact activeLeaseUnique_step hstep ih

/-! Claim theorems. -/

/-- C1: the claim states the commission posting equals the configured
fraction (50 percent) of the task price, a price-100 task yielding a
posting of amount 50. Evaluating the Approve Task script at exactly that
failing input shows the code posts 100 percent: one posting of amount
100 is created and the referrer's referral balance rises by 100, while
the repository's own moderation view (v_pending_tasks,
referral_commission_will_be_paid = ROUND(price * 0.5)), its README and
config (REFERRAL_COMMISSION=0.5) and its code review all state 50
percent. -/
theorem c1_commission_is_full_price_not_half :
    (approveTask 5 c1Store).map
        (fun s => (postingAmounts 5 s, referralBalanceOf 2 s, mainBalanceOf 1 s)) =
      .ok ([100], some 100, some 100) ∧ (100 : Int) ≠ 50 := by
  exact ⟨rfl, by decide⟩

/-- C2 counterexample: the claim says rejecting a pending withdrawal
leaves both balances unchanged. On the concrete store (main balance 100,
referral 20, pending withdrawal of 40) the Reject Withdrawal script
raises the main balance to 140. -/
theorem c2_reject_changes_balance :
    mainBalanceOf 7 c2Store = some 100 ∧
      (rejectWithdrawal 1 c2Store).map
          (fun s => (mainBalanceOf 7 s, referralBalanceOf 7 s, withdrawalStatusOf 1 s)) =
        .ok (some 140, some 20, some WStatus.rejected) := by
  exact ⟨rfl, rfl⟩

/-- C2 amended: rejecting a pending withdrawal marks it rejected and
credits the user's main (earnings) balance by the request amount - the
HIGH-14 refund of the deduction made at request time; the referral
balance is unchanged. -/
theorem c2_reject_refunds_main {wid : Nat} {s : Store} {w : Withdrawal} {u : User}
    (hw : findWithdrawal wid s = some w)
    (hu : findUser w.userId s = some u)
    (hpend : w.status = WStatus.pending)
    (hnd : (s.users.map User.telegramId).Nodup)
    (h1 : 0 ≤ u.mainBalance + w.amount) (h2 : u.mainBalance + w.amount ≤ balanceLimit)
    (h3 : 0 ≤ u.referralBalance) (h4 : u.referralBalance ≤ balanceLimit) :
    ∃ s', rejectWithdrawal wid s = .ok s' ∧
      mainBalanceOf w.userId s' = some (u.mainBalance + w.amount) ∧
      referralBalanceOf w.userId s' = some u.referralBalance ∧
      withdrawalStatusOf wid s' = some WStatus.rejected := by
  have hchk : checkUsersUpdate w.userId
      (fun x => { x with mainBalance := x.mainBalance + w.amount }) s.users = true := by
    apply checkUsersUpdate_of_found hu hnd
    simp only [userRangeOK, Bool.and_eq_true, decide_eq_true_eq]
    exact ⟨⟨⟨h1, h2⟩, h3⟩, h4⟩
  refine ⟨{ s with
      users := updateUser w.userId
        (fun x => { x with mainBalance := x.mainBalance + w.amount }) s.users,
      withdrawals := setWhere (fun x => decide (x.id = wid))
        (fun x => { x with status := WStatus.rejected }) s.withdrawals }, ?_, ?_, ?_, ?_⟩
  · simp only [rejectWithdrawal, hw, hchk, if_true]
  · simp only [mainBalanceOf, findUser]
    rw [find?_updateUser_self
      (f := fun x => { x with mainBalance := x.mainBalance + w.amount }) hu (fun x => rfl)]
    rfl
  · simp only [referralBalanceOf, findUser]
    rw [find?_updateUser_self
      (f := fun x => { x with mainBalance := x.mainBalance + w.amount }) hu (fun x => rfl)]
    rfl
  · simp only [withdrawalStatusOf, findWithdrawal]
    rw [find?_setWhere_self _ (fun x => { x with status := WStatus.rejected }) _ _ hw
      (fun x => rfl)]
    rfl

/-- C2 amended, witness: the amended statement evaluated on the concrete
store of the counterexample. -/
theorem c2_reject_refunds_main_witness :
    rejectWithdrawal 1 c2Store = .ok c2Result ∧
      mainBalanceOf 7 c2Result = some (100 + 40) ∧
      referralBalanceOf 7 c2Result = some 20 ∧
      withdrawalStatusOf 1 c2Result = some WStatus.rejected := by
  obtain ⟨s', h1, h2, h3, h4⟩ := c2_reject_refunds_main
    (show findWithdrawal 1 c2Store = some c2Withdrawal from rfl)
    (show findUser c2Withdrawal.userId c2Store = some c2User from rfl)
    rfl (by decide) (by decide) (by decide) (by decide) (by decide)
  have he : s' = c2Result := Except.ok.inj (h1.symm.trans (by rfl))
  subst he
  exact ⟨h1, h2, h3, h4⟩

/-- C3 counterexample: the claim says a second Approve on the same lease
fails with InvalidLeaseState and balances change only once. On the
concrete store (performer without referrer, price-100 task) the Approve
Task script succeeds twice in sequence and the performer's main balance
is credited twice (0 to 200), because the script has no precondition on
the lease state. -/
theorem c3_double_approve_credits_twice :
    ((approveTask 6 c3Store).bind (approveTask 6)).map
        (fun s => (mainBalanceOf 3 s, assignmentStatusOf 6 s)) =
      .ok (some 200, some AStatus.approved) := by
  rfl

/-- C3 amended: the Approve Task script checks no lease-state
precondition and nothing in it can fail with an InvalidLeaseState-style
error: it succeeds on a lease in any state, re-crediting the performer
each time (first conjunct, which nowhere requires the lease to be in
state submitted); and because migration 001's partial UNIQUE table
constraint is invalid PostgreSQL DDL and so never exists, the referral
branch is equally unguarded - approving a referred performer's lease
again inserts a further commission posting keyed by the same lease and
credits the referrer again (second conjunct). -/
theorem c3_no_state_guard :
    (∀ aid (s : Store) a t u, findAssignment aid s = some a → findTask a.taskId s = some t →
      findUser a.userId s = some u → u.referredBy = none →
      (s.users.map User.telegramId).Nodup →
      0 ≤ u.mainBalance → 0 ≤ u.referralBalance → u.referralBalance ≤ balanceLimit →
      0 ≤ t.price → t.price + u.mainBalance ≤ balanceLimit →
      ∃ s', approveTask aid s = .ok s' ∧
        mainBalanceOf a.userId s' = some (u.mainBalance + t.price)) ∧
    (∀ aid (s : Store) a t u r ru, findAssignment aid s = some a →
      findTask a.taskId s = some t → findUser a.userId s = some u →
      u.referredBy = some r → r ≠ a.userId → findUser r s = some ru →
      (s.users.map User.telegramId).Nodup →
      0 ≤ u.mainBalance → 0 ≤ u.referralBalance → u.referralBalance ≤ balanceLimit →
      0 ≤ ru.mainBalance → ru.mainBalance ≤ balanceLimit →
      0 ≤ ru.referralBalance →
      0 ≤ t.price → t.price + u.mainBalance ≤ balanceLimit →
      t.price + ru.referralBalance ≤ balanceLimit →
      ∃ s', approveTask aid s = .ok s' ∧
        mainBalanceOf a.userId s' = some (u.mainBalance + t.price) ∧
        referralBalanceOf r s' = some (ru.referralBalance + t.price) ∧
        postingsKeyed aid s' = postingsKeyed aid s ++
          [{ referrerId := r, referralId := u.telegramId, amount := t.price,
             taskAssignmentId := some aid, taskType := t.taskType,
             referralUsername := u.username }]) := by
  constructor
  · intro aid s a t u ha ht hu hnone hnd hm hr hrhi hp hhi
    have hchk : checkUsersUpdate a.userId
        (fun x => { x with mainBalance := x.mainBalance + t.price }) s.users = true := by
      apply checkUsersUpdate_of_found hu hnd
      simp only [userRangeOK, Bool.and_eq_true, decide_eq_true_eq]
      exact ⟨⟨⟨by omega, by omega⟩, hr⟩, hrhi⟩
    refine ⟨{ s with
        assignments := setWhere (fun x => decide (x.id = aid))
          (fun x => { x with status := AStatus.approved }) s.assignments,
        users := updateUser a.userId
          (fun x => { x with mainBalance := x.mainBalance + t.price }) s.users,
        tasks := setWhere (fun x => decide (x.id = a.taskId))
          (fun x => { x with isAvailable := true }) s.tasks }, ?_, ?_⟩
    · simp only [approveTask, ha, ht, hu, hnone, hchk, if_true]
      rw [if_neg (by omega)]
    · simp only [mainBalanceOf, findUser]
      rw [find?_updateUser_self
        (f := fun x => { x with mainBalance := x.mainBalance + t.price }) hu (fun x => rfl)]
      rfl
  · intro aid s a t u r ru ha ht hu hr hner hru hnd hm hrb hrhi hrm hrmhi hrr hp hhi hohi
    have hchk : checkUsersUpdate a.userId
        (fun x => { x with mainBalance := x.mainBalance + t.price }) s.users = true := by
      apply checkUsersUpdate_of_found hu hnd
      simp only [userRangeOK, Bool.and_eq_true, decide_eq_true_eq]
      exact ⟨⟨⟨by omega, by omega⟩, hrb⟩, hrhi⟩
    simp only [findUser] at hru
    have hru1 : (updateUser a.userId
        (fun x => { x with mainBalance := x.mainBalance + t.price }) s.users).find?
          (fun x => decide (x.telegramId = r)) = some ru := by
      rw [find?_updateUser_other
        (f := fun x => { x with mainBalance := x.mainBalance + t.price }) s.users
        hner (fun x => rfl)]
      exact hru
    have hnd1 : ((updateUser a.userId
        (fun x => { x with mainBalance := x.mainBalance + t.price }) s.users).map
          User.telegramId).Nodup := by
      rw [map_telegramId_updateUser
        (f := fun x => { x with mainBalance := x.mainBalance + t.price }) (fun x => rfl)]
      exact hnd
    have hchk2 : checkUsersUpdate r
        (fun x => { x with referralBalance := x.referralBalance + t.price })
        (updateUser a.userId
          (fun x => { x with mainBalance := x.mainBalance + t.price }) s.users) = true := by
      apply checkUsersUpdate_of_found hru1 hnd1
      simp only [userRangeOK, Bool.and_eq_true, decide_eq_true_eq]
      exact ⟨⟨⟨hrm, hrmhi⟩, by omega⟩, by omega⟩
    refine ⟨{ s with
        assignments := setWhere (fun x => decide (x.id = aid))
          (fun x => { x with status := AStatus.approved }) s.assignments,
        users := updateUser r
          (fun x => { x with referralBalance := x.referralBalance + t.price })
          (updateUser a.userId
            (fun x => { x with mainBalance := x.mainBalance + t.price }) s.users),
        tasks := setWhere (fun x => decide (x.id = a.taskId))
          (fun x => { x with isAvailable := true }) s.tasks,
        referralEarnings := s.referralEarnings ++
          [{ referrerId := r, referralId := u.telegramId, amount := t.price,
             taskAssignmentId := some aid, taskType := t.taskType,
             referralUsername := u.username }] }, ?_, ?_, ?_, ?_⟩
    · simp only [approveTask, ha, ht, hu, hr, hchk, if_true]
      rw [if_neg (by omega), hru1]
      dsimp only
      rw [if_neg (by omega)]
      simp only [hchk2, if_true]
    · simp only [mainBalanceOf, findUser]
      rw [find?_updateUser_other
        (f := fun x => { x with referralBalance := x.referralBalance + t.price }) _
        (Ne.symm hner) (fun x => rfl)]
      rw [find?_updateUser_self
        (f := fun x => { x with mainBalance := x.mainBalance + t.price }) hu (fun x => rfl)]
      rfl
    · simp only [referralBalanceOf, findUser]
      rw [find?_updateUser_self
        (f := fun x => { x with referralBalance := x.referralBalance + t.price }) hru1
        (fun x => rfl)]
      rfl
    · simp only [postingsKeyed, List.filter_append]
      simp

/-- C3 amended, witness: both conjuncts evaluated on concrete stores:
approving the already-approved unreferred lease 6 of c3Store succeeds
again, and approving the already-approved referred lease 5 of c3bStore,
whose commission already exists, succeeds and appends a second posting
keyed by lease 5 while crediting the referrer again. -/
theorem c3_no_state_guard_witness :
    (approveTask 6 c3Store = .ok c3Result ∧
      mainBalanceOf 3 c3Result = some (0 + 100)) ∧
      (approveTask 5 c3bStore = .ok c3bResult ∧
        mainBalanceOf 1 c3bResult = some (100 + 100) ∧
        referralBalanceOf 2 c3bResult = some (100 + 100) ∧
        postingsKeyed 5 c3bResult = postingsKeyed 5 c3bStore ++
          [{ referrerId := 2, referralId := 1, amount := 100, taskAssignmentId := some 5,
             taskType := "simple", referralUsername := none }]) := by
  constructor
  · obtain ⟨s', h1, h2⟩ := c3_no_state_guard.1 6 c3Store c3Lease c3Task c3User rfl rfl rfl rfl
      (by decide) (by decide) (by decide) (by decide) (by decide) (by decide)
    have he : s' = c3Result := Except.ok.inj (h1.symm.trans (by rfl))
    subst he
    exact ⟨h1, h2⟩
  · obtain ⟨s', h1, h2, h3, h4⟩ := c3_no_state_guard.2 5 c3bStore c3bLease c1Task
      c3bPerformer 2 c3bReferrer rfl rfl rfl rfl (by decide) rfl (by decide) (by decide)
      (by decide) (by decide) (by decide) (by decide) (by decide) (by decide) (by decide)
      (by decide)
    have he : s' = c3bResult := Except.ok.inj (h1.symm.trans (by rfl))
    subst he
    exact ⟨h1, h2, h3, h4⟩

/-- C9: approving a submitted lease whose performer has no referrer
credits the performer's main (earnings) balance by exactly the task's
price, returns the task to the pool (is_available = true), marks the
lease approved, and creates no commission posting - under both the
primary Approve Task script and its simplified variant. -/
theorem c9_approve_unreferred {aid : Nat} {s : Store} {a : Assignment} {t : Task} {u : User}
    (ha : findAssignment aid s = some a) (ht : findTask a.taskId s = some t)
    (hu : findUser a.userId s = some u)
    (hsub : a.status = AStatus.submitted)
    (hnone : u.referredBy = none)
    (hnd : (s.users.map User.telegramId).Nodup)
    (hm : 0 ≤ u.mainBalance) (hrb : 0 ≤ u.referralBalance)
    (hrhi : u.referralBalance ≤ balanceLimit)
    (hp : 0 ≤ t.price) (hhi : t.price + u.mainBalance ≤ balanceLimit) :
    (∃ s', approveTask aid s = .ok s' ∧
      mainBalanceOf a.userId s' = some (u.mainBalance + t.price) ∧
      referralBalanceOf a.userId s' = some u.referralBalance ∧
      taskAvailableOf a.taskId s' = some true ∧
      assignmentStatusOf aid s' = some AStatus.approved ∧
      s'.referralEarnings = s.referralEarnings) ∧
    (∃ s', approveTaskSimplified aid s = .ok s' ∧
      mainBalanceOf a.userId s' = some (u.mainBalance + t.price) ∧
      referralBalanceOf a.userId s' = some u.referralBalance ∧
      taskAvailableOf a.taskId s' = some true ∧
      assignmentStatusOf aid s' = some AStatus.approved ∧
      s'.referralEarnings = s.referralEarnings) := by
  have hchk : checkUsersUpdate a.userId
      (fun x => { x with mainBalance := x.mainBalance + t.price }) s.users = true := by
    apply checkUsersUpdate_of_found hu hnd
    simp only [userRangeOK, Bool.and_eq_true, decide_eq_true_eq]
    exact ⟨⟨⟨by omega, by omega⟩, hrb⟩, hrhi⟩
  constructor
  · refine ⟨{ s with
        assignments := setWhere (fun x => decide (x.id = aid))
          (fun x => { x with status := AStatus.approved }) s.assignments,
        users := updateUser a.userId
          (fun x => { x with mainBalance := x.mainBalance + t.price }) s.users,
        tasks := setWhere (fun x => decide (x.id = a.taskId))
          (fun x => { x with isAvailable := true }) s.tasks }, ?_, ?_, ?_, ?_, ?_, rfl⟩
    · simp only [approveTask, ha, ht, hu, hnone, hchk, if_true]
      rw [if_neg (by omega)]
    · simp only [mainBalanceOf, findUser]
      rw [find?_updateUser_self
        (f := fun x => { x with mainBalance := x.mainBalance + t.price }) hu (fun x => rfl)]
      rfl
    · simp only [referralBalanceOf, findUser]
      rw [find?_updateUser_self
        (f := fun x => { x with mainBalance := x.mainBalance + t.price }) hu (fun x => rfl)]
      rfl
    · simp only [taskAvailableOf, findTask]
      rw [find?_setWhere_self _ (fun x => { x with isAvailable := true }) _ _ ht
        (fun x => rfl)]
      rfl
    · simp only [assignmentStatusOf, findAssignment]
      rw [find?_setWhere_self _ (fun x => { x with status := AStatus.approved }) _ _ ha
        (fun x => rfl)]
      rfl
  · refine ⟨{ s with
        assignments := setWhere (fun x => decide (x.id = aid))
          (fun x => { x with status := AStatus.approved }) s.assignments,
        users := updateUser a.userId
          (fun x => { x with mainBalance := x.mainBalance + t.price }) s.users,
        tasks := setWhere (fun x => decide (x.id = a.taskId))
          (fun x => { x with isAvailable := true }) s.tasks }, ?_, ?_, ?_, ?_, ?_, rfl⟩
    · simp only [approveTaskSimplified, ha, ht, hu, hnone, hchk, if_true]
    · simp only [mainBalanceOf, findUser]
      rw [find?_updateUser_self
        (f := fun x => { x with mainBalance := x.mainBalance + t.price }) hu (fun x => rfl)]
      rfl
    · simp only [referralBalanceOf, findUser]
      rw [find?_updateUser_self
        (f := fun x => { x with mainBalance := x.mainBalance + t.price }) hu (fun x => rfl)]
      rfl
    · simp only [taskAvailableOf, findTask]
      rw [find?_setWhere_self _ (fun x => { x with isAvailable := true }) _ _ ht
        (fun x => rfl)]
      rfl
    · simp only [assignmentStatusOf, findAssignment]
      rw [find?_setWhere_self _ (fun x => { x with status := AStatus.approved }) _ _ ha
        (fun x => rfl)]
      rfl

/-- C9 witness: the statement evaluated on the concrete store c9Store
(performer balances 7/3, price-100 task). -/
theorem c9_approve_unreferred_witness :
    (approveTask 8 c9Store = .ok c9Result ∧
      mainBalanceOf 4 c9Result = some (7 + 100) ∧
      referralBalanceOf 4 c9Result = some 3 ∧
      taskAvailableOf 10 c9Result = some true ∧
      assignmentStatusOf 8 c9Result = some AStatus.approved ∧
      c9Result.referralEarnings = c9Store.referralEarnings) ∧
    (approveTaskSimplified 8 c9Store = .ok c9Result ∧
      mainBalanceOf 4 c9Result = some (7 + 100) ∧
      referralBalanceOf 4 c9Result = some 3 ∧
      taskAvailableOf 10 c9Result = some true ∧
      assignmentStatusOf 8 c9Result = some AStatus.approved ∧
      c9Result.referralEarnings = c9Store.referralEarnings) := by
  obtain ⟨⟨s1, p1, p2, p3, p4, p5, p6⟩, ⟨s2, q1, q2, q3, q4, q5, q6⟩⟩ :=
    c9_approve_unreferred
      (show findAssignment 8 c9Store = some c9Lease from rfl)
      (show findTask c9Lease.taskId c9Store = some c1Task from rfl)
      (show findUser c9Lease.userId c9Store = some c9User from rfl) rfl rfl
      (by decide) (by decide) (by decide) (by decide) (by decide) (by decide)
  have he1 : s1 = c9Result := Except.ok.inj (p1.symm.trans (by rfl))
  have he2 : s2 = c9Result := Except.ok.inj (q1.symm.trans (by rfl))
  subst he1
  subst he2
  exact ⟨⟨p1, p2, p3, p4, p5, p6⟩, ⟨q1, q2, q3, q4, q5, q6⟩⟩

/-- C5 counterexample: the claim says an approval with combined balance
below the amount fails with InsufficientBalance and changes no balance.
The simplified Approve Withdrawal script of MODERATION.md, applied to a
user with main 30 + referral 20 = 50 against a pending withdrawal of 60,
instead clamps both balances to zero (debiting only 50) and still marks
the request approved. -/
theorem c5_simplified_approves_insufficient :
    mainBalanceOf 8 c5Store = some 30 ∧ referralBalanceOf 8 c5Store = some 20 ∧
      (approveWithdrawalSimplified 2 c5Store).map
          (fun s => (mainBalanceOf 8 s, referralBalanceOf 8 s, withdrawalStatusOf 2 s)) =
        .ok (some 0, some 0, some WStatus.approved) := by
  exact ⟨rfl, rfl, rfl⟩

/-- C5 amended: under the primary Approve Withdrawal script the claim
holds as stated: with sufficient combined balance exactly the amount is
debited, main (earnings) balance first (min of amount and main balance)
and the remainder from the referral balance, and the request is marked
approved; with insufficient combined balance the transaction fails with
InsufficientBalance (and, being aborted, changes nothing). The
simplified fallback script instead clamps at zero and approves, as the
counterexample shows. -/
theorem c5_approve_withdrawal {wid : Nat} {s : Store} {w : Withdrawal} {u : User}
    (hw : findWithdrawal wid s = some w)
    (hu : findUser w.userId s = some u)
    (hpend : w.status = WStatus.pending)
    (hnd : (s.users.map User.telegramId).Nodup)
    (hm : 0 ≤ u.mainBalance) (hmhi : u.mainBalance ≤ balanceLimit)
    (hrb : 0 ≤ u.referralBalance) (hrhi : u.referralBalance ≤ balanceLimit)
    (h0a : 0 ≤ w.amount) :
    (w.amount ≤ u.mainBalance + u.referralBalance →
      ∃ s', approveWithdrawal wid s = .ok s' ∧
        mainBalanceOf w.userId s' = some (u.mainBalance - min w.amount u.mainBalance) ∧
        referralBalanceOf w.userId s' =
          some (u.referralBalance - (w.amount - min w.amount u.mainBalance)) ∧
        withdrawalStatusOf wid s' = some WStatus.approved) ∧
    (u.mainBalance + u.referralBalance < w.amount →
      approveWithdrawal wid s = .error .insufficientBalance) := by
  have hdef : withdrawalDeductions u w.amount =
      (min w.amount u.mainBalance, w.amount - min w.amount u.mainBalance) := by
    unfold withdrawalDeductions
    by_cases hc : u.mainBalance ≥ w.amount
    · rw [if_pos hc, min_eq_left hc]
      simp
    · rw [if_neg hc, min_eq_right (le_of_lt (not_le.mp hc))]
  constructor
  · intro hsuff
    have hmin1 : 0 ≤ min w.amount u.mainBalance := le_min h0a hm
    have hmin2 : min w.amount u.mainBalance ≤ u.mainBalance := min_le_right _ _
    have hd2a : 0 ≤ w.amount - min w.amount u.mainBalance :=
      sub_nonneg.mpr (min_le_left _ _)
    have hd2b : w.amount - min w.amount u.mainBalance ≤ u.referralBalance := by
      rcases le_or_lt w.amount u.mainBalance with hle | hlt
      · rw [min_eq_left hle]
        simpa using hrb
      · rw [min_eq_right (le_of_lt hlt)]
        omega
    have hchk : checkUsersUpdate w.userId
        (fun x => { x with
          mainBalance := x.mainBalance - min w.amount u.mainBalance,
          referralBalance := x.referralBalance - (w.amount - min w.amount u.mainBalance) })
        s.users = true := by
      apply checkUsersUpdate_of_found hu hnd
      simp only [userRangeOK, Bool.and_eq_true, decide_eq_true_eq]
      refine ⟨⟨⟨sub_nonneg.mpr hmin2, (sub_le_self _ hmin1).trans hmhi⟩,
        sub_nonneg.mpr hd2b⟩, (sub_le_self _ hd2a).trans hrhi⟩
    refine ⟨{ s with
        users := updateUser w.userId
          (fun x => { x with
            mainBalance := x.mainBalance - min w.amount u.mainBalance,
            referralBalance := x.referralBalance - (w.amount - min w.amount u.mainBalance) })
          s.users,
        withdrawals := setWhere (fun x => decide (x.id = wid))
          (fun x => { x with status := WStatus.approved }) s.withdrawals }, ?_, ?_, ?_, ?_⟩
    · simp only [approveWithdrawal, hw, hu, hdef, hchk, if_true]
      rw [if_neg (by omega)]
    · simp only [mainBalanceOf, findUser]
      rw [find?_updateUser_self
        (f := fun x => { x with
          mainBalance := x.mainBalance - min w.amount u.mainBalance,
          referralBalance := x.referralBalance - (w.amount - min w.amount u.mainBalance) })
        hu (fun x => rfl)]
      rfl
    · simp only [referralBalanceOf, findUser]
      rw [find?_updateUser_self
        (f := fun x => { x with
          mainBalance := x.mainBalance - min w.amount u.mainBalance,
          referralBalance := x.referralBalance - (w.amount - min w.amount u.mainBalance) })
        hu (fun x => rfl)]
      rfl
    · simp only [withdrawalStatusOf, findWithdrawal]
      rw [find?_setWhere_self _ (fun x => { x with status := WStatus.approved }) _ _ hw
        (fun x => rfl)]
      rfl
  · intro hlt
    simp only [approveWithdrawal, hw, hu]
    rw [if_pos hlt]

/-- C5 amended, witness: both branches on concrete stores: the covered
withdrawal of 40 against balances 30/20 debits 30 from main and 10 from
referral and approves; the short withdrawal of 60 against the same
balances fails with InsufficientBalance. -/
theorem c5_approve_withdrawal_witness :
    (approveWithdrawal 3 c5wStore = .ok c5Result ∧
      mainBalanceOf 8 c5Result = some (30 - min 40 30) ∧
      referralBalanceOf 8 c5Result = some (20 - (40 - min 40 30)) ∧
      withdrawalStatusOf 3 c5Result = some WStatus.approved) ∧
    approveWithdrawal 2 c5Store = .error .insufficientBalance := by
  constructor
  · obtain ⟨s', h1, h2, h3, h4⟩ := (c5_approve_withdrawal
      (show findWithdrawal 3 c5wStore = some c5Covered from rfl)
      (show findUser c5Covered.userId c5wStore = some c5User from rfl) rfl (by decide)
      (by decide) (by decide) (by decide) (by decide) (by decide)).1 (by decide)
    have he : s' = c5Result := Except.ok.inj (h1.symm.trans (by rfl))
    subst he
    exact ⟨h1, h2, h3, h4⟩
  · exact (c5_approve_withdrawal
      (show findWithdrawal 2 c5Store = some c5Short from rfl)
      (show findUser c5Short.userId c5Store = some c5User from rfl) rfl (by decide)
      (by decide) (by decide) (by decide) (by decide) (by decide)).2 (by decide)

/-- C8: the overflow policy of the primary Approve Task script: (1)
whenever the script commits, every balance - in particular both credited
ones - stays within [0, balanceLimit] (no wrap or silent truncation is
possible: balances are unbounded integers checked against the explicit
guards and CHECK constraints); (2) when crediting the performer would
pass the ceiling the script fails with the BalanceOverflow exception
before crediting; (3) when crediting the referrer would pass the ceiling
the script likewise fails with BalanceOverflow. -/
theorem c8_overflow_checked_before_credit :
    (∀ aid (s s' : Store), balancesOK s = true → approveTask aid s = .ok s' →
      ∀ x ∈ s'.users, 0 ≤ x.mainBalance ∧ x.mainBalance ≤ balanceLimit ∧
        0 ≤ x.referralBalance ∧ x.referralBalance ≤ balanceLimit) ∧
    (∀ aid (s : Store) a t u, findAssignment aid s = some a → findTask a.taskId s = some t →
      findUser a.userId s = some u → balanceLimit < t.price + u.mainBalance →
      approveTask aid s = .error .balanceOverflow) ∧
    (∀ aid (s : Store) a t u r ru, findAssignment aid s = some a →
      findTask a.taskId s = some t → findUser a.userId s = some u →
      u.referredBy = some r → r ≠ a.userId → findUser r s = some ru →
      (s.users.map User.telegramId).Nodup →
      0 ≤ u.mainBalance → 0 ≤ u.referralBalance → u.referralBalance ≤ balanceLimit →
      0 ≤ t.price → t.price + u.mainBalance ≤ balanceLimit →
      balanceLimit < t.price + ru.referralBalance →
      approveTask aid s = .error .balanceOverflow) := by
  refine ⟨?_, ?_, ?_⟩
  · intro aid s s' hb hok x hx
    have hb' : balancesOK s' = true := balancesOK_step (Step.approveTask aid s s' hok) hb
    have := (List.all_eq_true.mp hb') x hx
    simp only [userRangeOK, Bool.and_eq_true, decide_eq_true_eq] at this
    exact ⟨this.1.1.1, this.1.1.2, this.1.2, this.2⟩
  · intro aid s a t u ha ht hu hov
    simp only [approveTask, ha, ht, hu]
    rw [if_pos hov]
  · intro aid s a t u r ru ha ht hu hr hner hru hnd hm hrb hrhi hp hple hov
    have hchk : checkUsersUpdate a.userId
        (fun x => { x with mainBalance := x.mainBalance + t.price }) s.users = true := by
      apply checkUsersUpdate_of_found hu hnd
      simp only [userRangeOK, Bool.and_eq_true, decide_eq_true_eq]
      exact ⟨⟨⟨by omega, by omega⟩, hrb⟩, hrhi⟩
    simp only [findUser] at hru
    simp only [approveTask, ha, ht, hu, hr, hchk, if_true]
    rw [if_neg (by omega)]
    rw [find?_updateUser_other
      (f := fun x => { x with mainBalance := x.mainBalance + t.price }) s.users hner
      (fun x => rfl), hru]
    dsimp only
    rw [if_pos hov]

/-- C8 witness: all three conjuncts on concrete stores: a committed
approval leaves every balance within range; a performer 50 below the
ceiling on a price-100 task gets BalanceOverflow; a referrer 50 below
the ceiling likewise yields BalanceOverflow. -/
theorem c8_overflow_checked_before_credit_witness :
    ((0 : Int) ≤ 107 ∧ (107 : Int) ≤ balanceLimit ∧ (0 : Int) ≤ 3 ∧
      (3 : Int) ≤ balanceLimit) ∧
    approveTask 7 c8bStore = .error .balanceOverflow ∧
    approveTask 5 c8cStore = .error .balanceOverflow := by
  refine ⟨?_, ?_, ?_⟩
  · exact c8_overflow_checked_before_credit.1 8 c9Store c8aResult (by decide) (by rfl)
      { telegramId := 4, username := none, mainBalance := 107, referralBalance := 3,
        referredBy := none } (by decide)
  · exact c8_overflow_checked_before_credit.2.1 7 c8bStore c8Lease c1Task c8NearLimit
      rfl rfl rfl (by decide)
  · exact c8_overflow_checked_before_credit.2.2 5 c8cStore c1Lease c1Task c1Performer 2
      c8Referrer rfl rfl rfl rfl (by decide) rfl (by decide) (by decide) (by decide)
      (by decide) (by decide) (by decide) (by decide)

/-- C4: the claim is migration 001's own stated purpose ('prevent
double commission payments if admin accidentally approves the same task
twice'), but the migration's ALTER TABLE ... ADD CONSTRAINT ... UNIQUE
(task_assignment_id) WHERE ... is not valid PostgreSQL DDL - a partial
unique constraint requires CREATE UNIQUE INDEX ... WHERE, the form
schema.sql itself uses for the active-lease index - so the constraint
never exists. Evaluating the Approve Task script twice on the same
price-100 lease of a referred performer commits both times and leaves
two commission postings keyed by that lease, the referrer credited
twice. -/
theorem c4_double_approve_double_posts :
    ((approveTask 5 c4Store).bind (approveTask 5)).map
        (fun s => (postingAmounts 5 s, referralBalanceOf 2 s, mainBalanceOf 1 s)) =
      .ok ([100, 100], some 200, some 200) := by
  rfl

/-- C6: in every store reachable from a store satisfying the
idx_task_assignments_user_task_active invariant, at most one lease in
state assigned exists per (user, task) pair, and the partial unique
index makes the store itself refuse a second live lease for the same
pair: the insert fails with a uniqueness violation, so two racing lease
requests cannot both commit. -/
theorem c6_active_lease_mutual_exclusion {s0 s : Store}
    (h0 : activeLeaseUnique s0) (hr : Reachable s0 s) :
    activeLeaseUnique s ∧
      ∀ row : Assignment, row.status = AStatus.assigned →
        (∃ a ∈ s.assignments, a.userId = row.userId ∧ a.taskId = row.taskId ∧
          a.status = AStatus.assigned) →
        insertAssignment row s = .error .uniqueViolation := by
  refine ⟨activeLeaseUnique_reachable h0 hr, ?_⟩
  intro row hrow hex
  obtain ⟨a, hal, hau, hat, has⟩ := hex
  have hany : (s.assignments.any fun a => decide (a.userId = row.userId) &&
      decide (a.taskId = row.taskId) && decide (a.status = AStatus.assigned)) = true :=
    List.any_eq_true.mpr ⟨a, hal, by simp [hau, hat, has]⟩
  simp only [insertAssignment, hrow, decide_True, Bool.true_and, hany, if_true]

/-- C6 witness: the store with a live lease of user 1 on task 10
satisfies the invariant, and inserting a second live lease for the same
pair fails with the uniqueness violation. -/
theorem c6_active_lease_mutual_exclusion_witness :
    activeLeaseUnique c6Store ∧
      insertAssignment c6Row2 c6Store = .error .uniqueViolation := by
  constructor
  · exact (c6_active_lease_mutual_exclusion (by decide) Relation.ReflTransGen.refl).1
  · exact (c6_active_lease_mutual_exclusion (by decide) Relation.ReflTransGen.refl).2
      c6Row2 rfl ⟨c6Row, by decide, rfl, rfl, rfl⟩

/-- C7: in every store reachable from a store satisfying the CHECK
constraints of schema.sql, both balances of every user are non-negative
(and within the ceiling): every modelled operation either preserves the
constraints or aborts. -/
theorem c7_balances_never_negative {s0 s : Store}
    (h0 : balancesOK s0 = true) (hr : Reachable s0 s) :
    ∀ u ∈ s.users, 0 ≤ u.mainBalance ∧ 0 ≤ u.referralBalance := by
  intro u hu
  have hb := balancesOK_reachable h0 hr
  have hx := (List.all_eq_true.mp hb) u hu
  simp only [userRangeOK, Bool.and_eq_true, decide_eq_true_eq] at hx
  exact ⟨hx.1.1.1, hx.1.2⟩

/-- C7 witness: the invariant instantiated on the in-range user of
c7Store. -/
theorem c7_balances_never_negative_witness :
    0 ≤ c2User.mainBalance ∧ 0 ≤ c2User.referralBalance :=
  c7_balances_never_negative (show balancesOK c7Store = true by decide)
    (show Reachable c7Store c7Store from Relation.ReflTransGen.refl) c2User
    (show c2User ∈ c7Store.users by decide)

/-- C10: deleting a task assignment row deletes none of its commission
postings: the ON DELETE SET NULL action only nulls their source-lease
key (no surviving posting is keyed by the deleted lease), the
at-most-one-posting-per-non-null-source-lease property is preserved by
the deletion, and - because that property only covers non-NULL keys - a
store with two NULL-keyed postings satisfies it, so nulled postings fall
outside any exactly-once-per-lease scope. -/
theorem c10_delete_nulls_posting_keys (aid : Nat) (s : Store)
    (hc : uniqueCommissionOK s) :
    (deleteAssignment aid s).referralEarnings.length = s.referralEarnings.length ∧
      (∀ e ∈ (deleteAssignment aid s).referralEarnings, e.taskAssignmentId ≠ some aid) ∧
      uniqueCommissionOK (deleteAssignment aid s) ∧
      uniqueCommissionOK twoNullStore ∧ twoNullStore.referralEarnings.length = 2 := by
  refine ⟨by simp [deleteAssignment], ?_, ?_, by decide, rfl⟩
  · intro e he
    simp only [deleteAssignment, List.mem_map] at he
    obtain ⟨x, hxl, hxe⟩ := he
    by_cases hx : x.taskAssignmentId = some aid
    · rw [if_pos hx] at hxe
      rw [hxe.symm]
      simp
    · rw [if_neg hx] at hxe
      rw [hxe.symm]
      exact hx
  · exact uniqueCommissionOK_delete aid hc

/-- C10 witness: deleting assignment 7 from the store holding its
posting keeps the posting count at one and preserves the constraint. -/
theorem c10_delete_nulls_posting_keys_witness :
    (deleteAssignment 7 c10Store).referralEarnings.length =
        c10Store.referralEarnings.length ∧
      uniqueCommissionOK (deleteAssignment 7 c10Store) ∧
      uniqueCommissionOK twoNullStore := by
  refine ⟨(c10_delete_nulls_posting_keys 7 c10Store (by decide)).1,
    (c10_delete_nulls_posting_keys 7 c10Store (by decide)).2.2.1,
    (c10_delete_nulls_posting_keys 7 c10Store (by decide)).2.2.2.1⟩

end Avito
